import Mathlib

/-!
A verification development for the miniPaint RexxJS remote-control surface:
the command parser, the command dispatch table (MiniPaintRexxHandler.run and
its per-command handlers), the postMessage RPC control bus
(MiniPaintWorkerBridge / MiniPaintDirectorBridge), and the execute-rexx
meta-command wrapper.  JavaScript values are embedded shallowly: strings,
numbers (exact rationals; every JS double is a dyadic rational, and number
parsing/printing here follows Number() and template-literal stringification
on the terminating-decimal fragment actually exercised), booleans and
undefined.  Fallible provider calls are Except values; absent capabilities
are none.
-/

namespace MiniPaint

/-- An exact fraction (kernel-computable stand-in for the rationals:
every JavaScript double is such a fraction).  Values built by jqMk are
kept in lowest terms with a positive denominator, so structural equality
on constructed values coincides with rational equality. -/
structure JQ where
  n : Int
  d : ℕ
deriving DecidableEq, Repr

/-- Euclid's algorithm with explicit fuel so that it reduces in the
kernel; the fuel a + b + 1 always suffices. -/
def gcdFuel : ℕ → ℕ → ℕ → ℕ
  | 0, a, _ => a
  | fuel + 1, a, b => if a = 0 then b else gcdFuel fuel (b % a) a

/-- Greatest common divisor via gcdFuel. -/
def natGcdF (a b : ℕ) : ℕ := gcdFuel (a + b + 1) a b

/-- Normalizing constructor: lowest terms, positive denominator. -/
def jqMk (n : Int) (d : ℕ) : JQ :=
  if d = 0 then ⟨0, 1⟩
  else
    let g := natGcdF n.natAbs d
    if g = 0 then ⟨0, 1⟩ else ⟨n / (g : Int), d / g⟩

/-- The fraction for an integer. -/
def jqInt (i : Int) : JQ := ⟨i, 1⟩

/-- Compare two fractions by cross-multiplication. -/
def jqLt (a b : JQ) : Bool := a.n * (b.d : Int) < b.n * (a.d : Int)

/-- A JavaScript number: finite (exact fraction) or an infinity.  NaN is
never stored in a parameter map because the parser filters it out with
isNaN, so it is represented by Option at the points where it can arise. -/
inductive JSNum where
  | fin (q : JQ)
  | posInf
  | negInf
deriving DecidableEq, Repr

/-- The JavaScript values that flow through the command surface. -/
inductive JSValue where
  | str (s : String)
  | num (n : JSNum)
  | bool (b : Bool)
  | undef
deriving DecidableEq, Repr

/-- JS truthiness of a value ('' , 0, false, undefined are falsy). -/
def jsTruthy : JSValue → Bool
  | .str s => s ≠ ""
  | .num (.fin q) => q.n ≠ 0
  | .num _ => true
  | .bool b => b
  | .undef => false

/-- Truthiness of a possibly-absent value (absent = undefined = falsy). -/
def jsTruthyOpt : Option JSValue → Bool
  | none => false
  | some v => jsTruthy v

/-- Decimal digits of the fractional part of r/d by long division (r < d).
Fuel bounds the recursion; every number reached in this development is a
terminating decimal, so the fuel is never exhausted there. -/
def fracDigits : ℕ → ℕ → ℕ → String
  | 0, _, _ => ""
  | _, 0, _ => ""
  | fuel + 1, r, d =>
      let r10 := r * 10
      toString (r10 / d) ++ fracDigits fuel (r10 % d) d

/-- Stringification of a fraction as JavaScript prints the corresponding
number (sign, integer part, '.' and fractional digits when nonzero). -/
def ratToString (q : JQ) : String :=
  let sign := if q.n < 0 then "-" else ""
  let n := q.n.natAbs
  let d := q.d
  if d = 0 then "NaN"
  else if n % d = 0 then sign ++ toString (n / d)
  else sign ++ toString (n / d) ++ "." ++ fracDigits 1200 (n % d) d

/-- Template-literal stringification of a JS number. -/
def jsNumToString : JSNum → String
  | .fin q => ratToString q
  | .posInf => "Infinity"
  | .negInf => "-Infinity"

/-- Template-literal stringification of a JS value. -/
def jsValueToString : JSValue → String
  | .str s => s
  | .num n => jsNumToString n
  | .bool b => cond b "true" "false"
  | .undef => "undefined"

/-- Stringification of a possibly-absent value, as a template literal
interpolating a possibly-undefined variable does. -/
def jsOptToString (o : Option JSValue) : String :=
  jsValueToString (o.getD .undef)

/-- Value of a nonempty list of decimal digits, none when a character is
not a decimal digit or the list is empty. -/
def decDigitsVal (cs : List Char) : Option ℕ :=
  if cs = [] ∨ ¬cs.all Char.isDigit then none
  else some (cs.foldl (fun a c => a * 10 + (c.toNat - '0'.toNat)) 0)

/-- Value of one hexadecimal digit. -/
def hexDigitVal (c : Char) : Option ℕ :=
  if c.isDigit then some (c.toNat - '0'.toNat)
  else if 'a' ≤ c ∧ c ≤ 'f' then some (c.toNat - 'a'.toNat + 10)
  else if 'A' ≤ c ∧ c ≤ 'F' then some (c.toNat - 'A'.toNat + 10)
  else none

/-- Value of a nonempty string of digits in the given base. -/
def baseDigitsVal (base : ℕ) (cs : List Char) : Option ℕ :=
  if cs = [] then none
  else cs.foldl
    (fun acc c =>
      match acc, hexDigitVal c with
      | some a, some d => if d < base then some (a * base + d) else none
      | _, _ => none)
    (some 0)

/-- Split a character list at the first occurrence of a separator:
returns (before, after) where after excludes the separator, or none when
the separator does not occur. -/
def splitAtChar (sep : Char) (cs : List Char) : List Char × Option (List Char) :=
  match cs.dropWhile (· ≠ sep) with
  | [] => (cs.takeWhile (· ≠ sep), none)
  | _ :: rest => (cs.takeWhile (· ≠ sep), some rest)

/-- The fraction m * 10^e in lowest terms. -/
def jqScientific (m : Int) (e : Int) : JQ :=
  if 0 ≤ e then jqMk (m * 10 ^ e.toNat) 1 else jqMk m (10 ^ (-e).toNat)

/-- Parse the decimal-literal fragment accepted by JS Number():
optional sign, digits with an optional '.', optional exponent. -/
def parseDecimal (cs : List Char) : Option JQ :=
  let (neg, body) :=
    match cs with
    | '-' :: rest => (true, rest)
    | '+' :: rest => (false, rest)
    | _ => (false, cs)
  let (mant, expPart) :=
    match splitAtChar 'e' body with
    | (m, some e) => (m, some e)
    | (_, none) =>
        match splitAtChar 'E' body with
        | (m, some e) => (m, some e)
        | (m, none) => (m, none)
  let (ip, fp) :=
    match splitAtChar '.' mant with
    | (i, some f) => (i, f)
    | (i, none) => (i, [])
  if ip.all Char.isDigit ∧ fp.all Char.isDigit ∧ (ip ≠ [] ∨ fp ≠ []) then
    match decDigitsVal (ip ++ fp) with
    | none => none
    | some m =>
        let signed : Int := if neg then -(m : Int) else (m : Int)
        match expPart with
        | none => some (jqScientific signed (-(fp.length : Int)))
        | some ecs =>
            let (esign, edigits) :=
              match ecs with
              | '-' :: r => (true, r)
              | '+' :: r => (false, r)
              | _ => (false, ecs)
            match decDigitsVal edigits with
            | none => none
            | some e =>
                let ex : Int := if esign then -(e : Int) else (e : Int)
                some (jqScientific signed (ex - (fp.length : Int)))
  else none

/-- Strip leading and trailing whitespace from a character list. -/
def trimChars (cs : List Char) : List Char :=
  ((cs.dropWhile Char.isWhitespace).reverse.dropWhile Char.isWhitespace).reverse

/-- JS Number() applied to a string (none = NaN).  The empty or
all-whitespace string converts to 0; Infinity literals, 0x/0o/0b integer
literals and decimal literals are accepted; anything else is NaN. -/
def jsStringToNum (s : String) : Option JSNum :=
  match trimChars s.toList with
  | [] => some (.fin (jqInt 0))
  | '0' :: 'x' :: rest => (baseDigitsVal 16 rest).map (fun n => .fin (jqInt n))
  | '0' :: 'X' :: rest => (baseDigitsVal 16 rest).map (fun n => .fin (jqInt n))
  | '0' :: 'o' :: rest => (baseDigitsVal 8 rest).map (fun n => .fin (jqInt n))
  | '0' :: 'O' :: rest => (baseDigitsVal 8 rest).map (fun n => .fin (jqInt n))
  | '0' :: 'b' :: rest => (baseDigitsVal 2 rest).map (fun n => .fin (jqInt n))
  | '0' :: 'B' :: rest => (baseDigitsVal 2 rest).map (fun n => .fin (jqInt n))
  | cs =>
      if cs = "Infinity".toList ∨ cs = "+Infinity".toList then some .posInf
      else if cs = "-Infinity".toList then some .negInf
      else (parseDecimal cs).map .fin

/-- Parameter mappings: insertion-ordered key/value pairs, as a JS object
built by repeated property assignment. -/
abbrev Params := List (String × JSValue)

/-- Property read: params[key]. -/
def paramGet : Params → String → Option JSValue
  | [], _ => none
  | (k, v) :: rest, key => if k = key then some v else paramGet rest key

/-- Property assignment: params[key] = value (overwrites in place,
appends otherwise, keeping JS property order). -/
def setParam : Params → String → JSValue → Params
  | [], k, v => [(k, v)]
  | (k0, v0) :: rest, k, v =>
      if k0 = k then (k0, v) :: rest else (k0, v0) :: setParam rest k v

/-- parseCommand value coercion: 'true'/'false' become booleans, a token
that Number() accepts (other than the excluded empty string) becomes a
number, anything else stays a string. -/
def coerceValue (v : String) : JSValue :=
  if v = "true" then .bool true
  else if v = "false" then .bool false
  else
    match jsStringToNum v with
    | some n => if v = "" then .str v else .num n
    | none => .str v

/-- token.split('=') destructured as [key, value]: key is the text before
the first '=', value the text between the first and second '=' (none when
the token has no '='). -/
def splitEqKVChars (cs : List Char) : String × Option String :=
  match splitAtChar '=' cs with
  | (k, none) => (String.mk k, none)
  | (k, some rest) => (String.mk k, some (String.mk (rest.takeWhile (· ≠ '='))))

/-- Process one key=value token into the parameter map: skipped when the
key is empty (falsy) or there is no '='. -/
def addToken (ps : Params) (tok : List Char) : Params :=
  match splitEqKVChars tok with
  | (_, none) => ps
  | (k, some v) => if k ≠ "" then setParam ps k (coerceValue v) else ps

/-- Fold the parameter tokens of a command line. -/
def paramsOfTokens (ts : List (List Char)) : Params :=
  ts.foldl addToken []

/-- Split a trimmed string on runs of whitespace, as String.split(/\s+/)
does on a trimmed input (the empty string yields [""]). -/
def jsSplitWS (s : String) : List (List Char) :=
  let t := trimChars s.toList
  if t = [] then [[]]
  else (t.splitOnP Char.isWhitespace).filter (· ≠ [])

/-- The result of MiniPaintRexxHandler.parseCommand. -/
structure ParsedCmd where
  method : String
  params : Params
deriving DecidableEq, Repr

/-- MiniPaintRexxHandler.parseCommand: first whitespace-separated token is
the method, each later token contributes a coerced key=value pair. -/
def parseCommand (commandString : String) : ParsedCmd :=
  match jsSplitWS commandString with
  | [] => { method := "", params := [] }
  | first :: rest => { method := String.mk first, params := paramsOfTokens rest }

example : parseCommand "apply-effect blur radius=5" =
    { method := "apply-effect", params := [("radius", .num (.fin (jqInt 5)))] } := by decide

example : parseCommand "resize width=800 height=600" =
    { method := "resize",
      params := [("width", .num (.fin (jqInt 800))), ("height", .num (.fin (jqInt 600)))] } := by
  decide

example : coerceValue "horizontal" = .str "horizontal" := by decide
example : coerceValue "0.5" = .num (.fin ⟨1, 2⟩) := by decide
example : coerceValue "true" = .bool true := by decide
example : ratToString ⟨1, 2⟩ = "0.5" := by decide
example : jsValueToString (.num (.fin (jqInt 800))) = "800" := by decide
example : splitEqKVChars "a=b=c".toList = ("a", some "b") := by decide

/-!
## Editor Capability Provider model

The handlers consult the external miniPaint app object through truthiness
chains such as app.Actions && app.Actions.Image && app.Actions.Image.resize.
Each callable capability is modelled by its outcome in the current state:
none = the capability is absent, some (.ok _) = the call succeeds,
some (.error m) = the call throws with message m.  The provider is opaque,
so the outcome does not depend on the (pass-through) call arguments.
-/

/-- app.Actions.Image: the transform actions. -/
structure ImageCap where
  resize : Option (Except String Unit)
  rotate : Option (Except String Unit)
  flip : Option (Except String Unit)
  crop : Option (Except String Unit)
  newImage : Option (Except String Unit)

/-- app.Actions: Image actions plus the Filters dictionary
(app.Actions.Filters[name], looked up by effect name). -/
structure ActionsCap where
  Image : Option ImageCap
  Filters : Option (List (String × Except String Unit))

/-- A layer as returned by app.Layers.getLayerList. -/
structure LayerRec where
  id : JSNum
  name : String
  opacity : JSNum

/-- app.Layers: layer management capabilities.  addLayer returns the new
layer object (some id) or null (none). -/
structure LayersCap where
  addLayer : Option (Except String (Option JSValue))
  deleteLayer : Option (Except String Unit)
  mergeLayers : Option (Except String Unit)
  setOpacity : Option (Except String Unit)
  getLayerCount : Option (Except String JSNum)
  getCurrentLayer : Option (Except String JSNum)
  getLayerList : Option (Except String (List LayerRec))

/-- app.State.canvas dimensions. -/
structure CanvasRec where
  width : JSNum
  height : JSNum

/-- app.State: canvas / history / query capabilities. -/
structure StateCap where
  canvas : Option CanvasRec
  getCanvasSize : Option (Except String (JSNum × JSNum))
  getImageData : Option (Except String JSValue)
  undo : Option (Except String Unit)
  redo : Option (Except String Unit)

/-- app.FileOpen (only presence of readImageFile is consulted). -/
structure FileOpenCap where
  readImageFile : Bool

/-- app.FileSave. -/
structure FileSaveCap where
  saveFile : Option (Except String Unit)

/-- The miniPaint app object seen by the handlers. -/
structure AppState where
  Layers : Option LayersCap
  Actions : Option ActionsCap
  State : Option StateCap
  FileOpen : Option FileOpenCap
  FileSave : Option FileSaveCap

/-- app.Actions && app.Actions.Image. -/
def imageActions (app : AppState) : Option ImageCap :=
  match app.Actions with
  | none => none
  | some a => a.Image

/-- Dictionary lookup (app.Actions.Filters[name]). -/
def assocGet : List (String × Except String Unit) → String → Option (Except String Unit)
  | [], _ => none
  | (k, v) :: rest, key => if k = key then some v else assocGet rest key

/-!
## Response envelopes and the per-command handlers
-/

/-- A handler's partial result object: each field may be absent. -/
structure PartialResult where
  success : Option Bool
  errorCode : Option ℕ
  output : Option String
  result : Option JSValue
deriving DecidableEq, Repr

/-- A failure partial result: success false, error code, output message. -/
def pFail (c : ℕ) (msg : String) : PartialResult := ⟨some false, some c, some msg, none⟩

/-- A success partial result with an output message only. -/
def pOk (msg : String) : PartialResult := ⟨some true, none, some msg, none⟩

/-- A success partial result with output and result payload. -/
def pOkR (msg : String) (r : JSValue) : PartialResult := ⟨some true, none, some msg, some r⟩

/-- The normalized Response Envelope returned by run.  result = none
models a returned object with no result property at all. -/
structure RespEnvelope where
  success : Bool
  errorCode : ℕ
  output : String
  result : Option JSValue
deriving DecidableEq, Repr

/-- ToNumber on a JS value for the relational operators (none = NaN). -/
def jsToNumForCmp : JSValue → Option JSNum
  | .num n => some n
  | .str s => jsStringToNum s
  | .bool b => some (.fin (jqInt (cond b 1 0)))
  | .undef => none

/-- JS v < k for an integer constant k (false when v is NaN). -/
def jsLtInt (v : JSValue) (k : Int) : Bool :=
  match jsToNumForCmp v with
  | none => false
  | some (.fin q) => jqLt q (jqInt k)
  | some .posInf => false
  | some .negInf => true

/-- JS v > k for an integer constant k (false when v is NaN). -/
def jsGtInt (v : JSValue) (k : Int) : Bool :=
  match jsToNumForCmp v with
  | none => false
  | some (.fin q) => jqLt (jqInt k) q
  | some .posInf => true
  | some .negInf => false

/-- JSON.stringify of a JS number (Infinity serializes as null). -/
def jsonNum : JSNum → String
  | .fin q => ratToString q
  | _ => "null"

/-- Escape a string for JSON.stringify (the characters exercised here). -/
def jsonEscChar (c : Char) : List Char :=
  if c = '"' then ['\\', '"']
  else if c = '\\' then ['\\', '\\']
  else if c = '\n' then ['\\', 'n']
  else if c = '\t' then ['\\', 't']
  else if c = '\r' then ['\\', 'r']
  else [c]

/-- JSON string escaping. -/
def jsonEscape (s : String) : String :=
  String.mk (s.toList.foldr (fun c acc => jsonEscChar c ++ acc) [])

/-- The type of a dispatch-table handler. -/
abbrev MPHandler := AppState → Params → Except String PartialResult

/-- MiniPaintRexxHandler.openImage. -/
def openImage : MPHandler := fun app params =>
  let file := paramGet params "file"
  if !jsTruthyOpt file then .ok (pFail 10 "file parameter required")
  else
    match app.FileOpen with
    | some fo =>
        if fo.readImageFile then .ok (pOk ("Loaded image: " ++ jsOptToString file))
        else .ok (pFail 11 "FileOpen not available")
    | none => .ok (pFail 11 "FileOpen not available")

/-- MiniPaintRexxHandler.resize. -/
def resize : MPHandler := fun app params =>
  let width := paramGet params "width"
  let height := paramGet params "height"
  if !jsTruthyOpt width || !jsTruthyOpt height then
    .ok (pFail 20 "width and height parameters required")
  else
    match imageActions app with
    | some i =>
        match i.resize with
        | some (.ok _) =>
            .ok (pOk ("Resized to " ++ jsOptToString width ++ "x" ++ jsOptToString height))
        | some (.error m) => .ok (pFail 29 m)
        | none => .ok (pFail 21 "Resize action not available")
    | none => .ok (pFail 21 "Resize action not available")

/-- MiniPaintRexxHandler.rotate. -/
def rotate : MPHandler := fun app params =>
  let angle := paramGet params "angle"
  if angle = none then .ok (pFail 30 "angle parameter required")
  else
    match imageActions app with
    | some i =>
        match i.rotate with
        | some (.ok _) => .ok (pOk ("Rotated by " ++ jsOptToString angle ++ " degrees"))
        | some (.error m) => .ok (pFail 39 m)
        | none => .ok (pFail 31 "Rotate action not available")
    | none => .ok (pFail 31 "Rotate action not available")

/-- MiniPaintRexxHandler.flip. -/
def flip : MPHandler := fun app params =>
  let direction := paramGet params "direction"
  let dirOk := direction == some (JSValue.str "horizontal") ||
    direction == some (JSValue.str "vertical")
  if !jsTruthyOpt direction || !dirOk then
    .ok (pFail 40 "direction must be \"horizontal\" or \"vertical\"")
  else
    match imageActions app with
    | some i =>
        match i.flip with
        | some (.ok _) => .ok (pOk ("Flipped " ++ jsOptToString direction))
        | some (.error m) => .ok (pFail 49 m)
        | none => .ok (pFail 41 "Flip action not available")
    | none => .ok (pFail 41 "Flip action not available")

/-- MiniPaintRexxHandler.crop. -/
def crop : MPHandler := fun app params =>
  let x1 := paramGet params "x1"
  let y1 := paramGet params "y1"
  let x2 := paramGet params "x2"
  let y2 := paramGet params "y2"
  if x1 = none ∨ y1 = none ∨ x2 = none ∨ y2 = none then
    .ok (pFail 50 "x1, y1, x2, y2 parameters required")
  else
    match imageActions app with
    | some i =>
        match i.crop with
        | some (.ok _) =>
            .ok (pOk ("Cropped to (" ++ jsOptToString x1 ++ "," ++ jsOptToString y1 ++
              ")-(" ++ jsOptToString x2 ++ "," ++ jsOptToString y2 ++ ")"))
        | some (.error m) => .ok (pFail 59 m)
        | none => .ok (pFail 51 "Crop action not available")
    | none => .ok (pFail 51 "Crop action not available")

/-- The effect names accepted by applyEffect and listed by listEffects. -/
def validEffects : List String :=
  ["blur", "sharpen", "emboss", "sepia", "invert", "posterize",
   "grayscale", "brightness", "contrast", "saturation"]

/-- MiniPaintRexxHandler.applyEffect.  The rest-spread effectParams are
passed through to the opaque provider call, whose outcome the capability
model already fixes. -/
def applyEffect : MPHandler := fun app params =>
  let name := paramGet params "name"
  if !jsTruthyOpt name then .ok (pFail 60 "name parameter required")
  else
    let inList :=
      match name with
      | some (.str s) => validEffects.contains s
      | _ => false
    if !inList then .ok (pFail 61 ("Unknown effect: " ++ jsOptToString name))
    else
      let call :=
        match app.Actions with
        | none => none
        | some a =>
            match a.Filters with
            | none => none
            | some fl => assocGet fl (jsOptToString name)
      match call with
      | some (.ok _) => .ok (pOk ("Applied effect: " ++ jsOptToString name))
      | some (.error m) => .ok (pFail 69 m)
      | none => .ok (pFail 62 ("Effect " ++ jsOptToString name ++ " not available"))

/-- MiniPaintRexxHandler.addLayer. -/
def addLayer : MPHandler := fun app params =>
  let nm := (paramGet params "name").getD (.str "Layer")
  match app.Layers with
  | some l =>
      match l.addLayer with
      | some (.ok layer) =>
          .ok (pOkR ("Added layer: " ++ jsValueToString nm)
            (match layer with
             | some idv => idv
             | none => .str ""))
      | some (.error m) => .ok (pFail 79 m)
      | none => .ok (pFail 71 "addLayer not available")
  | none => .ok (pFail 71 "addLayer not available")

/-- MiniPaintRexxHandler.deleteLayer. -/
def deleteLayer : MPHandler := fun app params =>
  let id := paramGet params "id"
  if id = none then .ok (pFail 80 "id parameter required")
  else
    match app.Layers with
    | some l =>
        match l.deleteLayer with
        | some (.ok _) => .ok (pOk ("Deleted layer: " ++ jsOptToString id))
        | some (.error m) => .ok (pFail 89 m)
        | none => .ok (pFail 81 "deleteLayer not available")
    | none => .ok (pFail 81 "deleteLayer not available")

/-- MiniPaintRexxHandler.mergeLayers. -/
def mergeLayers : MPHandler := fun app _params =>
  match app.Layers with
  | some l =>
      match l.mergeLayers with
      | some (.ok _) => .ok (pOk "Merged all layers")
      | some (.error m) => .ok (pFail 99 m)
      | none => .ok (pFail 91 "mergeLayers not available")
  | none => .ok (pFail 91 "mergeLayers not available")

/-- MiniPaintRexxHandler.setOpacity. -/
def setOpacity : MPHandler := fun app params =>
  let layer := paramGet params "layer"
  let opacity := paramGet params "opacity"
  if layer = none ∨ opacity = none then
    .ok (pFail 100 "layer and opacity parameters required")
  else if jsLtInt (opacity.getD .undef) 0 || jsGtInt (opacity.getD .undef) 1 then
    .ok (pFail 101 "opacity must be between 0 and 1")
  else
    match app.Layers with
    | some l =>
        match l.setOpacity with
        | some (.ok _) =>
            .ok (pOk ("Set layer " ++ jsOptToString layer ++ " opacity to " ++
              jsOptToString opacity))
        | some (.error m) => .ok (pFail 109 m)
        | none => .ok (pFail 102 "setOpacity not available")
    | none => .ok (pFail 102 "setOpacity not available")

/-- MiniPaintRexxHandler.saveImage (format defaults to png and is passed
through to the opaque provider call). -/
def saveImage : MPHandler := fun app params =>
  let output := paramGet params "output"
  if !jsTruthyOpt output then .ok (pFail 110 "output parameter required")
  else
    match app.FileSave with
    | some fs =>
        match fs.saveFile with
        | some (.ok _) => .ok (pOk ("Saved image: " ++ jsOptToString output))
        | some (.error m) => .ok (pFail 119 m)
        | none => .ok (pFail 111 "saveFile not available")
    | none => .ok (pFail 111 "saveFile not available")

/-- JSON.stringify of the canvas-size record. -/
def jsonWH (w h : JSNum) : String :=
  "\x7b\"width\":" ++ jsonNum w ++ ",\"height\":" ++ jsonNum h ++ "\x7d"

/-- MiniPaintRexxHandler.getCanvasSize. -/
def getCanvasSize : MPHandler := fun app _params =>
  match app.State with
  | some st =>
      match st.getCanvasSize with
      | some (.ok (w, h)) =>
          .ok ⟨some true, none,
            some ("Canvas size: " ++ jsNumToString w ++ "x" ++ jsNumToString h),
            some (.str (jsonWH w h))⟩
      | some (.error m) => .ok (pFail 129 m)
      | none => .ok (pFail 121 "getCanvasSize not available")
  | none => .ok (pFail 121 "getCanvasSize not available")

/-- MiniPaintRexxHandler.getImageData. -/
def getImageData : MPHandler := fun app _params =>
  match app.State with
  | some st =>
      match st.getImageData with
      | some (.ok dataUrl) => .ok (pOkR "Retrieved image data" dataUrl)
      | some (.error m) => .ok (pFail 139 m)
      | none => .ok (pFail 131 "getImageData not available")
  | none => .ok (pFail 131 "getImageData not available")

/-- app.Layers?.getLayerCount?.() as an Except (throwing calls propagate
to the handler's catch; an absent chain yields undefined, then || 0). -/
def layerCountCall (l : Option LayersCap)
    (sel : LayersCap → Option (Except String JSNum)) : Except String JSNum :=
  match l with
  | none => .ok (.fin (jqInt 0))
  | some lc =>
      match sel lc with
      | none => .ok (.fin (jqInt 0))
      | some (.ok n) => .ok n
      | some (.error m) => .error m

/-- JSON.stringify of the image-info record. -/
def jsonInfo (cw ch lc cl : JSNum) : String :=
  "\x7b\"canvasWidth\":" ++ jsonNum cw ++ ",\"canvasHeight\":" ++ jsonNum ch ++
  ",\"layerCount\":" ++ jsonNum lc ++ ",\"currentLayer\":" ++ jsonNum cl ++ "\x7d"

/-- MiniPaintRexxHandler.getImageInfo. -/
def getImageInfo : MPHandler := fun app _params =>
  match app.State with
  | none => .ok (pFail 141 "State not available")
  | some st =>
      let cw := (st.canvas.map CanvasRec.width).getD (.fin (jqInt 0))
      let ch := (st.canvas.map CanvasRec.height).getD (.fin (jqInt 0))
      match layerCountCall app.Layers LayersCap.getLayerCount with
      | .error m => .ok (pFail 149 m)
      | .ok lc =>
          match layerCountCall app.Layers LayersCap.getCurrentLayer with
          | .error m => .ok (pFail 149 m)
          | .ok cl =>
              .ok (pOkR "Retrieved image info" (.str (jsonInfo cw ch lc cl)))

/-- JSON.stringify of a string array. -/
def jsonStrArray (xs : List String) : String :=
  "[" ++ String.intercalate "," (xs.map (fun s => "\"" ++ jsonEscape s ++ "\"")) ++ "]"

/-- MiniPaintRexxHandler.listEffects (its catch branch is unreachable). -/
def listEffects : MPHandler := fun _app _params =>
  .ok (pOkR ("Available effects: " ++ String.intercalate ", " validEffects)
    (.str (jsonStrArray validEffects)))

/-- JSON.stringify of the layer list. -/
def jsonLayers (ls : List LayerRec) : String :=
  "[" ++ String.intercalate ","
    (ls.map (fun l =>
      "\x7b\"id\":" ++ jsonNum l.id ++ ",\"name\":\"" ++ jsonEscape l.name ++
      "\",\"opacity\":" ++ jsonNum l.opacity ++ "\x7d")) ++ "]"

/-- MiniPaintRexxHandler.listLayers. -/
def listLayers : MPHandler := fun app _params =>
  match app.Layers with
  | some l =>
      match l.getLayerList with
      | some (.ok layers) =>
          .ok (pOkR ("Layers: " ++ String.intercalate ", " (layers.map LayerRec.name))
            (.str (jsonLayers layers)))
      | some (.error m) => .ok (pFail 169 m)
      | none => .ok (pFail 161 "getLayerList not available")
  | none => .ok (pFail 161 "getLayerList not available")

/-- MiniPaintRexxHandler.newImage: width and height default to 800 and
600 when absent; there is no missing-parameter branch. -/
def newImage : MPHandler := fun app params =>
  let width := (paramGet params "width").getD (.num (.fin (jqInt 800)))
  let height := (paramGet params "height").getD (.num (.fin (jqInt 600)))
  match imageActions app with
  | some i =>
      match i.newImage with
      | some (.ok _) =>
          .ok (pOk ("Created new image: " ++ jsValueToString width ++ "x" ++
            jsValueToString height))
      | some (.error m) => .ok (pFail 179 m)
      | none => .ok (pFail 171 "newImage not available")
  | none => .ok (pFail 171 "newImage not available")

/-- MiniPaintRexxHandler.undo. -/
def undo : MPHandler := fun app _params =>
  match app.State with
  | some st =>
      match st.undo with
      | some (.ok _) => .ok (pOk "Undo performed")
      | some (.error m) => .ok (pFail 189 m)
      | none => .ok (pFail 181 "undo not available")
  | none => .ok (pFail 181 "undo not available")

/-- MiniPaintRexxHandler.redo. -/
def redo : MPHandler := fun app _params =>
  match app.State with
  | some st =>
      match st.redo with
      | some (.ok _) => .ok (pOk "Redo performed")
      | some (.error m) => .ok (pFail 199 m)
      | none => .ok (pFail 191 "redo not available")
  | none => .ok (pFail 191 "redo not available")

/-- The this.handlers registry built in the constructor. -/
def handlers : String → Option MPHandler := fun m =>
  match m with
  | "open-image" => some openImage
  | "resize" => some resize
  | "rotate" => some rotate
  | "flip" => some flip
  | "crop" => some crop
  | "apply-effect" => some applyEffect
  | "add-layer" => some addLayer
  | "delete-layer" => some deleteLayer
  | "merge-layers" => some mergeLayers
  | "set-opacity" => some setOpacity
  | "save-image" => some saveImage
  | "get-canvas-size" => some getCanvasSize
  | "get-image-data" => some getImageData
  | "get-image-info" => some getImageInfo
  | "list-effects" => some listEffects
  | "list-layers" => some listLayers
  | "new-image" => some newImage
  | "undo" => some undo
  | "redo" => some redo
  | _ => none

/-- result.result || '' in the envelope normalization. -/
def normalizeResult : Option JSValue → JSValue
  | some v => if jsTruthy v then v else .str ""
  | none => .str ""

/-- The envelope normalization run applies to a handler's return value:
success unless explicitly false, errorCode || 0, output || '',
result || ''. -/
def normalizeEnvelope (p : PartialResult) : RespEnvelope :=
  ⟨!(p.success == some false), p.errorCode.getD 0, p.output.getD "",
    some (normalizeResult p.result)⟩

/-- Handler lookup and invocation inside run (after the initialization
check and command parsing): unknown command, uncaught-failure conversion,
and envelope normalization. -/
def dispatchArgs (reg : String → Option MPHandler) (app : AppState)
    (method : String) (args : Params) : RespEnvelope :=
  match reg method with
  | none => ⟨false, 2, "Unknown command: " ++ method, none⟩
  | some h =>
      match h app args with
      | .error msg => ⟨false, 99, "Error: " ++ msg, none⟩
      | .ok p => normalizeEnvelope p

/-- The first argument of run: a string command, or any other JS value
(which JS property lookup stringifies). -/
inductive RunArg where
  | str (s : String)
  | val (v : JSValue)

/-- MiniPaintRexxHandler.run: the dispatch entry point.  When
commandString is a string it is parsed and the separate params argument
is not consulted; otherwise the params argument is used as the
arguments. -/
def run (reg : String → Option MPHandler) (app : AppState)
    (commandString : RunArg) (params : Params) : RespEnvelope :=
  if app.Layers.isNone then ⟨false, 1, "miniPaint not initialized", none⟩
  else
    match commandString with
    | .str s =>
        let pc := parseCommand s
        dispatchArgs reg app pc.method pc.params
    | .val v => dispatchArgs reg app (jsValueToString v) params

/-- A fully initialized provider on which every capability is available
and succeeds. -/
def appFull : AppState :=
  ⟨some ⟨some (.ok (some (.num (.fin (jqInt 2))))), some (.ok ()), some (.ok ()),
      some (.ok ()), some (.ok (.fin (jqInt 2))), some (.ok (.fin (jqInt 0))),
      some (.ok [⟨.fin (jqInt 1), "Background", .fin (jqInt 1)⟩])⟩,
   some ⟨some ⟨some (.ok ()), some (.ok ()), some (.ok ()), some (.ok ()), some (.ok ())⟩,
      some (validEffects.map (fun e => (e, Except.ok ())))⟩,
   some ⟨some ⟨.fin (jqInt 1024), .fin (jqInt 768)⟩,
      some (.ok (.fin (jqInt 1024), .fin (jqInt 768))),
      some (.ok (.str "data:image/png;base64,AAAA")), some (.ok ()), some (.ok ())⟩,
   some ⟨true⟩,
   some ⟨some (.ok ())⟩⟩

/-- The uninitialized provider (app.Layers absent). -/
def appUninit : AppState := ⟨none, none, none, none, none⟩

example : run handlers appFull (.str "resize width=800 height=600") [] =
    ⟨true, 0, "Resized to 800x600", some (.str "")⟩ := by decide

example : run handlers appFull (.str "resize")
      [("width", .num (.fin (jqInt 800))), ("height", .num (.fin (jqInt 600)))] =
    ⟨false, 20, "width and height parameters required", some (.str "")⟩ := by decide

example : run handlers appFull (.str "new-image") [] =
    ⟨true, 0, "Created new image: 800x600", some (.str "")⟩ := by decide

example : run handlers appUninit (.str "undo") [] =
    ⟨false, 1, "miniPaint not initialized", none⟩ := by decide

example : run handlers appFull (.str "bogus") [] =
    ⟨false, 2, "Unknown command: bogus", none⟩ := by decide

example : run handlers appFull (.str "flip") [] =
    ⟨false, 40, "direction must be \"horizontal\" or \"vertical\"", some (.str "")⟩ := by
  decide

/-!
## The postMessage RPC control bus

Wire messages are duck-typed postMessage payloads; absent properties are
none.  The worker bridge turns an rpc-request into an rpc-response whose
success flag is copied from the dispatched Response Envelope and whose
result property carries the whole envelope; its catch branch (which would
set the error property) is unreachable because run never throws.

The director bridge is modelled as a state machine: sendRPC allocates the
next id and registers a pending entry whose timer deadline is the send
time plus the configured timeout; message delivery and timer firing are
the events.  Promise settlements are recorded in the outcomes list.
-/

/-- A postMessage payload as destructured by the bridges. -/
structure WireMsg where
  type : String
  id : ℕ
  method : Option String
  params : Option Params
  success : Option Bool
  result : Option RespEnvelope
  error : Option String
deriving DecidableEq

/-- MiniPaintWorkerBridge.executeCommand: run(method, params) — method
arrives as a string from the wire, so run re-parses it and the separate
params argument is dropped on the floor. -/
def executeCommand (app : AppState) (method : Option String)
    (params : Option Params) : RespEnvelope :=
  run handlers app
    (match method with
     | some s => .str s
     | none => .val .undef)
    (params.getD [])

/-- MiniPaintWorkerBridge.setupMessageHandling: ignore anything that is
not an rpc-request; otherwise dispatch and post back an rpc-response. -/
def workerHandleMessage (app : AppState) (data : Option WireMsg) : Option WireMsg :=
  match data with
  | none => none
  | some m =>
      if m.type = "rpc-request" then
        let e := executeCommand app m.method m.params
        some ⟨"rpc-response", m.id, none, none, some e.success, some e, none⟩
      else none

/-- Association-list lookup by numeric id (Map.get). -/
def keyGet {α : Type} : List (ℕ × α) → ℕ → Option α
  | [], _ => none
  | (k, v) :: rest, id => if k = id then some v else keyGet rest id

/-- Association-list removal by numeric id (Map.delete). -/
def eraseKey {α : Type} : List (ℕ × α) → ℕ → List (ℕ × α)
  | [], _ => []
  | (k, v) :: rest, id =>
      if k = id then eraseKey rest id else (k, v) :: eraseKey rest id

/-- A pending-request entry: the method (captured by the timeout closure)
and the timer's deadline (send time + timeout). -/
structure PendingEntry where
  method : String
  deadline : ℕ
deriving DecidableEq

/-- A promise settlement: resolve carries the wire result property,
reject carries the error message. -/
inductive Outcome where
  | resolved (r : Option RespEnvelope)
  | rejected (msg : String)
deriving DecidableEq

/-- MiniPaintDirectorBridge state: the id counter, configured timeout,
pending-request table, settled promises, and posted requests. -/
structure DirectorState where
  requestId : ℕ
  timeout : ℕ
  pending : List (ℕ × PendingEntry)
  outcomes : List (ℕ × Outcome)
  posted : List WireMsg
deriving DecidableEq

/-- The constructor-initialized director (timeout 30000 ms). -/
def initDirector : DirectorState := ⟨0, 30000, [], [], []⟩

/-- The events a director bridge reacts to: a sendRPC call at time t, a
message-channel delivery, and a timer firing at time t for an id. -/
inductive DirectorEvent where
  | send (t : ℕ) (method : String) (params : Params)
  | recv (data : Option WireMsg)
  | fire (t : ℕ) (id : ℕ)

/-- The timeout rejection message built in sendRPC. -/
def rejectText (id : ℕ) (method : String) (tmo : ℕ) : String :=
  "RPC request " ++ toString id ++ " (" ++ method ++ ") timed out after " ++
    toString tmo ++ "ms"

/-- error || 'Unknown error' in the response handler. -/
def errorText : Option String → String
  | some e => if e = "" then "Unknown error" else e
  | none => "Unknown error"

/-- One step of the director bridge.  send: allocate ++requestId,
register the pending entry with its timer, post the rpc-request.
recv: ignore non-rpc-response data; for a pending id, settle the promise
per the wire success flag and delete the entry; an unknown id is ignored.
fire: a timer fires only at its scheduled deadline and only while its
entry is still pending (clearTimeout on settlement is modelled by entry
removal); it deletes the entry and rejects with the timeout message. -/
def dstep (s : DirectorState) : DirectorEvent → DirectorState
  | .send t m p =>
      let id := s.requestId + 1
      ⟨id, s.timeout, (id, ⟨m, t + s.timeout⟩) :: s.pending, s.outcomes,
        s.posted ++ [⟨"rpc-request", id, some m, some p, none, none, none⟩]⟩
  | .recv none => s
  | .recv (some msg) =>
      if msg.type = "rpc-response" then
        match keyGet s.pending msg.id with
        | none => s
        | some _ =>
            ⟨s.requestId, s.timeout, eraseKey s.pending msg.id,
              s.outcomes ++ [(msg.id,
                if msg.success.getD false then .resolved msg.result
                else .rejected (errorText msg.error))],
              s.posted⟩
      else s
  | .fire t id =>
      match keyGet s.pending id with
      | none => s
      | some e =>
          if t = e.deadline then
            ⟨s.requestId, s.timeout, eraseKey s.pending id,
              s.outcomes ++ [(id, .rejected (rejectText id e.method s.timeout))],
              s.posted⟩
          else s

/-- Director states reachable from construction. -/
inductive DReach : DirectorState → Prop where
  | init : DReach initDirector
  | step (s : DirectorState) (e : DirectorEvent) : DReach s → DReach (dstep s e)

lemma keyGet_none_iff {α : Type} (l : List (ℕ × α)) (id : ℕ) :
    keyGet l id = none ↔ id ∉ l.map Prod.fst := by
  induction l with
  | nil => simp [keyGet]
  | cons hd tl ih =>
      obtain ⟨k, v⟩ := hd
      by_cases hk : k = id
      · subst hk
        simp [keyGet]
      · simp [keyGet, hk, ih, Ne.symm hk]

lemma keyGet_some_mem {α : Type} {l : List (ℕ × α)} {id : ℕ} {e : α}
    (h : keyGet l id = some e) : id ∈ l.map Prod.fst := by
  by_contra hmem
  rw [← keyGet_none_iff] at hmem
  rw [hmem] at h
  exact Option.noConfusion h

lemma eraseKey_cons_self {α : Type} (k : ℕ) (v : α) (tl : List (ℕ × α)) :
    eraseKey ((k, v) :: tl) k = eraseKey tl k := by
  simp [eraseKey]

lemma eraseKey_cons_ne {α : Type} (k i : ℕ) (v : α) (tl : List (ℕ × α))
    (h : ¬k = i) : eraseKey ((k, v) :: tl) i = (k, v) :: eraseKey tl i := by
  simp [eraseKey, h]

lemma mem_map_fst_eraseKey {α : Type} (l : List (ℕ × α)) (i j : ℕ) :
    j ∈ (eraseKey l i).map Prod.fst ↔ j ∈ l.map Prod.fst ∧ j ≠ i := by
  induction l with
  | nil => simp [eraseKey]
  | cons hd tl ih =>
      obtain ⟨k, v⟩ := hd
      by_cases hk : k = i
      · subst hk
        rw [eraseKey_cons_self, ih]
        simp only [List.map_cons, List.mem_cons]
        constructor
        · rintro ⟨hj, hne⟩
          exact ⟨Or.inr hj, hne⟩
        · rintro ⟨hj | hj, hne⟩
          · exact absurd hj hne
          · exact ⟨hj, hne⟩
      · rw [eraseKey_cons_ne _ _ _ _ hk]
        simp only [List.map_cons, List.mem_cons, ih]
        constructor
        · rintro (hj | ⟨hj, hne⟩)
          · subst hj
            exact ⟨Or.inl rfl, hk⟩
          · exact ⟨Or.inr hj, hne⟩
        · rintro ⟨hj | hj, hne⟩
          · exact Or.inl hj
          · exact Or.inr ⟨hj, hne⟩

lemma nodup_map_fst_eraseKey {α : Type} (l : List (ℕ × α)) (i : ℕ)
    (h : (l.map Prod.fst).Nodup) : ((eraseKey l i).map Prod.fst).Nodup := by
  induction l with
  | nil => simp [eraseKey]
  | cons hd tl ih =>
      obtain ⟨k, v⟩ := hd
      simp only [List.map_cons, List.nodup_cons] at h
      by_cases hk : k = i
      · rw [hk, eraseKey_cons_self]
        exact ih h.2
      · rw [eraseKey_cons_ne _ _ _ _ hk]
        simp only [List.map_cons, List.nodup_cons]
        refine ⟨fun hmem => ?_, ih h.2⟩
        rw [mem_map_fst_eraseKey] at hmem
        exact h.1 hmem.1

lemma keyGet_eraseKey_ne {α : Type} (l : List (ℕ × α)) (i j : ℕ) (h : j ≠ i) :
    keyGet (eraseKey l i) j = keyGet l j := by
  induction l with
  | nil => simp [eraseKey]
  | cons hd tl ih =>
      obtain ⟨k, v⟩ := hd
      by_cases hk : k = i
      · subst hk
        have hkj : ¬k = j := fun hkj => h (hkj ▸ rfl)
        rw [eraseKey_cons_self, ih]
        simp [keyGet, hkj]
      · rw [eraseKey_cons_ne _ _ _ _ hk]
        by_cases hkj : k = j
        · subst hkj
          simp [keyGet]
        · simp [keyGet, hkj, ih]

/-- The director-bridge invariant: pending and outcome ids are
duplicate-free, no id is both pending and settled, and all ids were
allocated by the counter. -/
structure DInv (s : DirectorState) : Prop where
  pendNodup : (s.pending.map Prod.fst).Nodup
  outNodup : (s.outcomes.map Prod.fst).Nodup
  disj : ∀ i, i ∈ s.pending.map Prod.fst → i ∉ s.outcomes.map Prod.fst
  pendBound : ∀ i ∈ s.pending.map Prod.fst, i ≤ s.requestId
  outBound : ∀ i ∈ s.outcomes.map Prod.fst, i ≤ s.requestId

lemma dinv_init : DInv initDirector := by
  refine ⟨?_, ?_, ?_, ?_, ?_⟩ <;> simp [initDirector]

lemma dinv_step (s : DirectorState) (e : DirectorEvent) (h : DInv s) :
    DInv (dstep s e) := by
  obtain ⟨hp, ho, hd, hpb, hob⟩ := h
  cases e with
  | send t m p =>
      refine ⟨?_, ?_, ?_, ?_, ?_⟩
      · simp only [dstep, List.map_cons, List.nodup_cons]
        refine ⟨fun hmem => ?_, hp⟩
        have := hpb _ hmem
        omega
      · simpa [dstep] using ho
      · intro i hi
        simp only [dstep, List.map_cons, List.mem_cons] at hi
        rcases hi with hi | hi
        · subst hi
          intro hmem
          have := hob _ hmem
          simp only [dstep] at this ⊢
          omega
        · simpa [dstep] using hd i hi
      · intro i hi
        simp only [dstep, List.map_cons, List.mem_cons] at hi
        rcases hi with hi | hi
        · simp [dstep, hi]
        · have := hpb _ hi
          simp only [dstep]
          omega
      · intro i hi
        simp only [dstep] at hi
        have := hob _ hi
        simp only [dstep]
        omega
  | recv data =>
      cases data with
      | none => exact ⟨hp, ho, hd, hpb, hob⟩
      | some msg =>
          by_cases ht : msg.type = "rpc-response"
          · cases hk : keyGet s.pending msg.id with
            | none =>
                have hs : dstep s (.recv (some msg)) = s := by simp [dstep, ht, hk]
                rw [hs]
                exact ⟨hp, ho, hd, hpb, hob⟩
            | some entry =>
                have hmemid : msg.id ∈ s.pending.map Prod.fst := keyGet_some_mem hk
                have hs : dstep s (.recv (some msg)) =
                    ⟨s.requestId, s.timeout, eraseKey s.pending msg.id,
                      s.outcomes ++ [(msg.id,
                        if msg.success.getD false then .resolved msg.result
                        else .rejected (errorText msg.error))],
                      s.posted⟩ := by
                  simp [dstep, ht, hk]
                rw [hs]
                refine ⟨nodup_map_fst_eraseKey _ _ hp, ?_, ?_, ?_, ?_⟩
                · show ((s.outcomes ++ _).map Prod.fst).Nodup
                  rw [List.map_append, List.nodup_append]
                  refine ⟨ho, List.nodup_singleton _, ?_⟩
                  intro a ha hb
                  simp only [List.map_cons, List.map_nil, List.mem_cons,
                    List.not_mem_nil, or_false] at hb
                  subst hb
                  exact hd _ hmemid ha
                · intro i hi hmem
                  replace hi := (mem_map_fst_eraseKey _ _ _).mp hi
                  simp only [List.map_append, List.map_cons, List.map_nil,
                    List.mem_append, List.mem_cons, List.not_mem_nil,
                    or_false] at hmem
                  rcases hmem with hmem | hmem
                  · exact hd _ hi.1 hmem
                  · exact hi.2 hmem
                · intro i hi
                  exact hpb _ ((mem_map_fst_eraseKey _ _ _).mp hi).1
                · intro i hi
                  simp only [List.map_append, List.map_cons, List.map_nil,
                    List.mem_append, List.mem_cons, List.not_mem_nil,
                    or_false] at hi
                  rcases hi with hi | hi
                  · exact hob _ hi
                  · subst hi
                    exact hpb _ hmemid
          · have hs : dstep s (.recv (some msg)) = s := by simp [dstep, ht]
            rw [hs]
            exact ⟨hp, ho, hd, hpb, hob⟩
  | fire t id =>
      cases hk : keyGet s.pending id with
      | none =>
          have hs : dstep s (.fire t id) = s := by simp [dstep, hk]
          rw [hs]
          exact ⟨hp, ho, hd, hpb, hob⟩
      | some entry =>
          by_cases htd : t = entry.deadline
          · have hmemid : id ∈ s.pending.map Prod.fst := keyGet_some_mem hk
            have hs : dstep s (.fire t id) =
                ⟨s.requestId, s.timeout, eraseKey s.pending id,
                  s.outcomes ++ [(id, .rejected (rejectText id entry.method s.timeout))],
                  s.posted⟩ := by
              simp [dstep, hk, htd]
            rw [hs]
            refine ⟨nodup_map_fst_eraseKey _ _ hp, ?_, ?_, ?_, ?_⟩
            · show ((s.outcomes ++ _).map Prod.fst).Nodup
              rw [List.map_append, List.nodup_append]
              refine ⟨ho, List.nodup_singleton _, ?_⟩
              intro a ha hb
              simp only [List.map_cons, List.map_nil, List.mem_cons,
                List.not_mem_nil, or_false] at hb
              subst hb
              exact hd _ hmemid ha
            · intro i hi hmem
              replace hi := (mem_map_fst_eraseKey _ _ _).mp hi
              simp only [List.map_append, List.map_cons, List.map_nil,
                List.mem_append, List.mem_cons, List.not_mem_nil,
                or_false] at hmem
              rcases hmem with hmem | hmem
              · exact hd _ hi.1 hmem
              · exact hi.2 hmem
            · intro i hi
              exact hpb _ ((mem_map_fst_eraseKey _ _ _).mp hi).1
            · intro i hi
              simp only [List.map_append, List.map_cons, List.map_nil,
                List.mem_append, List.mem_cons, List.not_mem_nil,
                or_false] at hi
              rcases hi with hi | hi
              · exact hob _ hi
              · subst hi
                exact hpb _ hmemid
          · have hs : dstep s (.fire t id) = s := by simp [dstep, hk, htd]
            rw [hs]
            exact ⟨hp, ho, hd, hpb, hob⟩

lemma dreach_inv (s : DirectorState) (h : DReach s) : DInv s := by
  induction h with
  | init => exact dinv_init
  | step s e _ ih => exact dinv_step s e ih

/-!
## The execute-rexx meta-command (execute-rexx.js)

setupRexxScriptExecution wraps the registered ADDRESS handler: a command
string starting with execute-rexx has its script payload taken from
params.script or extracted with the regex /script="([^"]+)"/, and the
embedded script is run through executeRexxScript; other commands fall
through to the original handler (run).  The external RexxJS parser
(window.parse) and interpreter availability are parameters of the model.
-/

/-- Is the needle a prefix of the haystack? -/
def leadsWith : List Char → List Char → Bool
  | [], _ => true
  | _ :: _, [] => false
  | n :: ns, c :: cs => n = c && leadsWith ns cs

/-- String.includes: does the needle occur in the haystack? -/
def hasSubstr : List Char → List Char → Bool
  | [], ns => ns.isEmpty
  | c :: rest, ns => leadsWith ns (c :: rest) || hasSubstr rest ns

/-- The literal part of the extraction regex. -/
def scriptMarker : List Char := "script=\"".toList

/-- Leftmost match of /script="([^"]+)"/: at each position, the literal
marker, then one or more non-quote characters, then a closing quote;
on failure the scan advances one position (regex-engine behavior). -/
def findScriptCapture : List Char → Option String
  | [] => none
  | c :: rest =>
      if leadsWith scriptMarker (c :: rest) then
        let after := (c :: rest).drop scriptMarker.length
        let cap := after.takeWhile (· ≠ '"')
        let rest2 := after.dropWhile (· ≠ '"')
        if cap ≠ [] ∧ rest2 ≠ [] then some (String.mk cap)
        else findScriptCapture rest
      else findScriptCapture rest

/-- The command shapes produced by the external RexxJS parser that the
execution loop in executeRexxScript distinguishes. -/
inductive RexxCmd where
  | say (v : String)
  | address (command : RunArg) (params : Params)
  | assign (varName : String) (value : JSValue)
  | other

/-- The external RexxJS engine: whether window.RexxInterpreter and
window.parse are loaded, and the parse function itself. -/
structure RexxEnv where
  loaded : Bool
  parseScript : JSValue → Except String (List RexxCmd)

/-- response.result || response.output || ''. -/
def respResultOrOutput (resp : RespEnvelope) : JSValue :=
  let r := resp.result.getD .undef
  if jsTruthy r then r
  else if resp.output ≠ "" then .str resp.output
  else .str ""

/-- The interpreter state threaded through the command loop. -/
structure SState where
  output : String
  result : JSValue
  returnCode : ℕ
  vars : List (String × JSValue)

/-- The command loop of executeRexxScript.  ADDRESS commands are sent to
handler.run; the RC and RESULT interpreter variables are updated by the
send wrapper, then returnCode and the result variable per the response;
stopOnError breaks the loop. -/
def execCmds (app : AppState) (stopOnError : Bool) :
    List RexxCmd → SState → SState
  | [], st => st
  | c :: rest, st =>
      match c with
      | .say v =>
          execCmds app stopOnError rest
            ⟨st.output ++ v ++ "\n", st.result, st.returnCode, st.vars⟩
      | .address cmd ps =>
          let resp := run handlers app cmd ps
          let vars1 :=
            setParam (setParam st.vars "RC" (.num (.fin (jqInt resp.errorCode))))
              "RESULT" (respResultOrOutput resp)
          if resp.errorCode ≠ 0 then
            let st1 : SState := ⟨st.output, .str resp.output, resp.errorCode, vars1⟩
            if stopOnError then st1 else execCmds app stopOnError rest st1
          else
            execCmds app stopOnError rest
              ⟨st.output, respResultOrOutput resp, st.returnCode, vars1⟩
      | .assign n v =>
          execCmds app stopOnError rest
            ⟨st.output, st.result, st.returnCode, setParam st.vars n v⟩
      | .other => execCmds app stopOnError rest st

/-- What executeRexxScript resolves with. -/
structure ScriptResult where
  success : Bool
  output : String
  result : Option JSValue
  returnCode : ℕ
deriving DecidableEq, Repr

/-- executeRexxScript: missing interpreter resolves returnCode 1 (without
a result property); a window.parse failure appends 'Parse error: …' to
the output and resolves returnCode 2; otherwise the command loop runs and
the resolution carries its final state.  The outer catch (returnCode 99)
is unreachable in this model because nothing inside throws. -/
def executeRexxScript (env : RexxEnv) (app : AppState) (script : JSValue)
    (options : Params) : ScriptResult :=
  if !env.loaded then ⟨false, "RexxJS interpreter not loaded", none, 1⟩
  else
    match env.parseScript script with
    | .error m =>
        ⟨false, String.mk (trimChars ("\nParse error: " ++ m).toList),
          some (.str ""), 2⟩
    | .ok cmds =>
        let st := execCmds app (jsTruthyOpt (paramGet options "stopOnError")) cmds
          ⟨"", .str "", 0, []⟩
        ⟨st.returnCode == 0, String.mk (trimChars st.output.toList),
          some st.result, st.returnCode⟩

/-- The wrapped window.ADDRESS_MINIPAINT_HANDLER installed by
setupRexxScriptExecution.  Its catch branch (errorCode 299) is
unreachable in this model because executeRexxScript never rejects. -/
def executeRexxWrapper (env : RexxEnv) (app : AppState)
    (commandString : String) (params : Params) : RespEnvelope :=
  if leadsWith "execute-rexx".toList commandString.toList then
    let s0 : JSValue :=
      match paramGet params "script" with
      | some v => if jsTruthy v then v else .str ""
      | none => .str ""
    let s1 : JSValue :=
      if !jsTruthy s0 && hasSubstr commandString.toList "script=".toList then
        match findScriptCapture commandString.toList with
        | some cap => .str cap
        | none => .str ""
      else s0
    if !jsTruthy s1 then
      ⟨false, 200, "script parameter required for execute-rexx", none⟩
    else
      let r := executeRexxScript env app s1 params
      ⟨r.success, r.returnCode, r.output, some (r.result.getD .undef)⟩
  else run handlers app (.str commandString) params

/-- An available engine whose parser rejects every script. -/
def envParseFail : RexxEnv := ⟨true, fun _ => .error "Unexpected token"⟩

example : executeRexxWrapper envParseFail appFull "execute-rexx script=\"BAD\"" [] =
    ⟨false, 2, "Parse error: Unexpected token", some (.str "")⟩ := by decide

example : executeRexxWrapper envParseFail appFull "execute-rexx" [] =
    ⟨false, 200, "script parameter required for execute-rexx", none⟩ := by decide

example : findScriptCapture "execute-rexx script=\"SAY 1\"".toList = some "SAY 1" := by
  decide

/-!
## Parser lemmas and the parser claims
-/

lemma takeWhile_stops_at_eq (l r : List Char) (h : '=' ∉ l) :
    (l ++ '=' :: r).takeWhile (· ≠ '=') = l := by
  induction l with
  | nil => simp
  | cons c cs ih =>
      have hc : c ≠ '=' := by
        intro hc
        exact h (hc ▸ List.mem_cons_self c cs)
      have hmem : '=' ∉ cs := fun hm => h (List.mem_cons_of_mem _ hm)
      rw [List.cons_append, List.takeWhile_cons, if_pos (by simp [hc]), ih hmem]

lemma dropWhile_stops_at_eq (l r : List Char) (h : '=' ∉ l) :
    (l ++ '=' :: r).dropWhile (· ≠ '=') = '=' :: r := by
  induction l with
  | nil => simp
  | cons c cs ih =>
      have hc : c ≠ '=' := by
        intro hc
        exact h (hc ▸ List.mem_cons_self c cs)
      have hmem : '=' ∉ cs := fun hm => h (List.mem_cons_of_mem _ hm)
      rw [List.cons_append, List.dropWhile_cons, if_pos (by simp [hc])]
      exact ih hmem

lemma takeWhile_all_ne (l : List Char) (h : '=' ∉ l) :
    l.takeWhile (· ≠ '=') = l := by
  induction l with
  | nil => simp
  | cons c cs ih =>
      have hc : c ≠ '=' := by
        intro hc
        exact h (hc ▸ List.mem_cons_self c cs)
      have hmem : '=' ∉ cs := fun hm => h (List.mem_cons_of_mem _ hm)
      rw [List.takeWhile_cons, if_pos (by simp [hc]), ih hmem]

lemma dropWhile_all_ne (l : List Char) (h : '=' ∉ l) :
    l.dropWhile (· ≠ '=') = [] := by
  induction l with
  | nil => simp
  | cons c cs ih =>
      have hc : c ≠ '=' := by
        intro hc
        exact h (hc ▸ List.mem_cons_self c cs)
      have hmem : '=' ∉ cs := fun hm => h (List.mem_cons_of_mem _ hm)
      rw [List.dropWhile_cons, if_pos (by simp [hc])]
      exact ih hmem

lemma addToken_skip (ps : Params) (tok : List Char) (h : '=' ∉ tok) :
    addToken ps tok = ps := by
  unfold addToken splitEqKVChars splitAtChar
  rw [dropWhile_all_ne tok h]

lemma foldl_addToken_filter (ts : List (List Char)) (ps : Params) :
    ts.foldl addToken ps =
      (ts.filter (fun t => decide ('=' ∈ t))).foldl addToken ps := by
  induction ts generalizing ps with
  | nil => rfl
  | cons t ts ih =>
      rw [List.foldl_cons, List.filter_cons]
      by_cases hc : '=' ∈ t
      · rw [if_pos (by simpa using hc), List.foldl_cons]
        exact ih (addToken ps t)
      · rw [if_neg (by simpa using hc), addToken_skip ps t hc]
        exact ih ps

/-- C7.  parse("apply-effect blur radius=5") yields method "apply-effect"
and params exactly [radius = 5]; parameter folding depends only on the
tokens that contain an '=' (the bare token blur is silently ignored, and
parsing never fails); and any value token accepted by Number() (other
than the excluded empty string, and the boolean literals, which Number()
rejects) is coerced to that number. -/
theorem c7_parse_apply_effect :
    parseCommand "apply-effect blur radius=5" =
      ⟨"apply-effect", [("radius", .num (.fin (jqInt 5)))]⟩ ∧
    (∀ ts : List (List Char),
      paramsOfTokens ts = paramsOfTokens (ts.filter (fun t => decide ('=' ∈ t)))) ∧
    (∀ (v : String) (q : JSNum), v ≠ "" → jsStringToNum v = some q →
      coerceValue v = .num q) := by
  refine ⟨by decide, ?_, ?_⟩
  · intro ts
    exact foldl_addToken_filter ts []
  · intro v q hne hq
    have ht : v ≠ "true" := by
      intro hv
      rw [hv, show jsStringToNum "true" = none from by decide] at hq
      exact Option.noConfusion hq
    have hf : v ≠ "false" := by
      intro hv
      rw [hv, show jsStringToNum "false" = none from by decide] at hq
      exact Option.noConfusion hq
    unfold coerceValue
    rw [if_neg ht, if_neg hf, hq]
    simp [hne]

theorem c7_parse_apply_effect_witness :
    paramsOfTokens ["blur".toList, "radius=5".toList] =
      paramsOfTokens (["blur".toList, "radius=5".toList].filter
        (fun t => decide ('=' ∈ t))) ∧
    coerceValue "5" = .num (.fin (jqInt 5)) :=
  ⟨c7_parse_apply_effect.2.1 ["blur".toList, "radius=5".toList],
   c7_parse_apply_effect.2.2 "5" (.fin (jqInt 5)) (by decide) (by decide)⟩

/-- C10.  A token with two or more '=' separators is not rejected: the
key is the text before the first '=', the stored value comes from the
text between the first and second '=' only, and the token contributes to
the parameter map exactly as if it had been truncated at the second '='
(everything after it is discarded). -/
theorem c10_multi_eq_token :
    ∀ (pre mid post : List Char) (ps : Params), '=' ∉ pre → '=' ∉ mid →
      splitEqKVChars (pre ++ '=' :: (mid ++ '=' :: post)) =
        (String.mk pre, some (String.mk mid)) ∧
      addToken ps (pre ++ '=' :: (mid ++ '=' :: post)) =
        addToken ps (pre ++ '=' :: mid) := by
  intro pre mid post ps hpre hmid
  have hsplit1 : splitEqKVChars (pre ++ '=' :: (mid ++ '=' :: post)) =
      (String.mk pre, some (String.mk mid)) := by
    unfold splitEqKVChars splitAtChar
    rw [dropWhile_stops_at_eq pre (mid ++ '=' :: post) hpre]
    dsimp only
    rw [takeWhile_stops_at_eq pre (mid ++ '=' :: post) hpre]
    rw [takeWhile_stops_at_eq mid post hmid]
  have hsplit2 : splitEqKVChars (pre ++ '=' :: mid) =
      (String.mk pre, some (String.mk mid)) := by
    unfold splitEqKVChars splitAtChar
    rw [dropWhile_stops_at_eq pre mid hpre]
    dsimp only
    rw [takeWhile_stops_at_eq pre mid hpre]
    rw [takeWhile_all_ne mid hmid]
  refine ⟨hsplit1, ?_⟩
  unfold addToken
  rw [hsplit1, hsplit2]

theorem c10_multi_eq_token_witness :
    splitEqKVChars ("a" ++ "=" ++ "b" ++ "=" ++ "c").toList = ("a", some "b") ∧
    addToken [] ("a" ++ "=" ++ "b" ++ "=" ++ "c").toList =
      addToken [] ("a" ++ "=" ++ "b").toList := by
  have h := c10_multi_eq_token ['a'] ['b'] ['c'] [] (by decide) (by decide)
  exact ⟨h.1, h.2⟩

/-!
## Envelope invariants of the dispatch table
-/

/-- A handler return value is good when the normalized success flag
(success unless explicitly false) agrees with errorCode || 0 being 0.
Every handler of the registry satisfies this. -/
def GoodPartial : Except String PartialResult → Prop
  | .error _ => True
  | .ok p => (!(p.success == some false)) = (p.errorCode.getD 0 == 0)

lemma openImage_good (app : AppState) (ps : Params) : GoodPartial (openImage app ps) := by
  simp only [openImage]
  repeat' split
  all_goals rfl

lemma resize_good (app : AppState) (ps : Params) : GoodPartial (resize app ps) := by
  simp only [resize]
  repeat' split
  all_goals rfl

lemma rotate_good (app : AppState) (ps : Params) : GoodPartial (rotate app ps) := by
  simp only [rotate]
  repeat' split
  all_goals rfl

lemma flip_good (app : AppState) (ps : Params) : GoodPartial (flip app ps) := by
  simp only [flip]
  repeat' split
  all_goals rfl

lemma crop_good (app : AppState) (ps : Params) : GoodPartial (crop app ps) := by
  simp only [crop]
  repeat' split
  all_goals rfl

lemma applyEffect_good (app : AppState) (ps : Params) :
    GoodPartial (applyEffect app ps) := by
  simp only [applyEffect]
  repeat' split
  all_goals rfl

lemma addLayer_good (app : AppState) (ps : Params) : GoodPartial (addLayer app ps) := by
  simp only [addLayer]
  repeat' split
  all_goals rfl

lemma deleteLayer_good (app : AppState) (ps : Params) :
    GoodPartial (deleteLayer app ps) := by
  simp only [deleteLayer]
  repeat' split
  all_goals rfl

lemma mergeLayers_good (app : AppState) (ps : Params) :
    GoodPartial (mergeLayers app ps) := by
  simp only [mergeLayers]
  repeat' split
  all_goals rfl

lemma setOpacity_good (app : AppState) (ps : Params) :
    GoodPartial (setOpacity app ps) := by
  simp only [setOpacity]
  repeat' split
  all_goals rfl

lemma saveImage_good (app : AppState) (ps : Params) :
    GoodPartial (saveImage app ps) := by
  simp only [saveImage]
  repeat' split
  all_goals rfl

lemma getCanvasSize_good (app : AppState) (ps : Params) :
    GoodPartial (getCanvasSize app ps) := by
  simp only [getCanvasSize]
  repeat' split
  all_goals rfl

lemma getImageData_good (app : AppState) (ps : Params) :
    GoodPartial (getImageData app ps) := by
  simp only [getImageData]
  repeat' split
  all_goals rfl

lemma getImageInfo_good (app : AppState) (ps : Params) :
    GoodPartial (getImageInfo app ps) := by
  simp only [getImageInfo]
  repeat' split
  all_goals rfl

lemma listEffects_good (app : AppState) (ps : Params) :
    GoodPartial (listEffects app ps) := by
  rfl

lemma listLayers_good (app : AppState) (ps : Params) :
    GoodPartial (listLayers app ps) := by
  simp only [listLayers]
  repeat' split
  all_goals rfl

lemma newImage_good (app : AppState) (ps : Params) :
    GoodPartial (newImage app ps) := by
  simp only [newImage]
  repeat' split
  all_goals rfl

lemma undo_good (app : AppState) (ps : Params) : GoodPartial (undo app ps) := by
  simp only [undo]
  repeat' split
  all_goals rfl

lemma redo_good (app : AppState) (ps : Params) : GoodPartial (redo app ps) := by
  simp only [redo]
  repeat' split
  all_goals rfl

lemma handlers_good (m : String) (h : MPHandler) (hm : handlers m = some h)
    (app : AppState) (ps : Params) : GoodPartial (h app ps) := by
  unfold handlers at hm
  split at hm <;>
    first
      | exact Option.noConfusion hm
      | (cases hm
         first
           | exact openImage_good app ps
           | exact resize_good app ps
           | exact rotate_good app ps
           | exact flip_good app ps
           | exact crop_good app ps
           | exact applyEffect_good app ps
           | exact addLayer_good app ps
           | exact deleteLayer_good app ps
           | exact mergeLayers_good app ps
           | exact setOpacity_good app ps
           | exact saveImage_good app ps
           | exact getCanvasSize_good app ps
           | exact getImageData_good app ps
           | exact getImageInfo_good app ps
           | exact listEffects_good app ps
           | exact listLayers_good app ps
           | exact newImage_good app ps
           | exact undo_good app ps
           | exact redo_good app ps)

lemma dispatchArgs_success_iff (app : AppState) (method : String) (args : Params) :
    (dispatchArgs handlers app method args).success =
      ((dispatchArgs handlers app method args).errorCode == 0) := by
  unfold dispatchArgs
  cases hh : handlers method with
  | none => rfl
  | some h =>
      dsimp only
      cases hr : h app args with
      | error msg => rfl
      | ok p =>
          have hg := handlers_good method h hh app args
          rw [hr] at hg
          simpa [normalizeEnvelope, GoodPartial] using hg

/-- C1.  Calling the dispatch entry point run with the method string
"resize" and the separate params (width 800, height 600) against a
fully available provider does NOT return the success envelope: run
re-parses the string "resize" and discards the params argument, so resize
sees no arguments and fails with errorCode 20.  The claimed envelope
(success true, errorCode 0, output "Resized to 800x600") is produced
only when the parameters are embedded in the command string itself. -/
theorem c1_resize_params_dropped :
    run handlers appFull (.str "resize")
        [("width", .num (.fin (jqInt 800))), ("height", .num (.fin (jqInt 600)))] =
      ⟨false, 20, "width and height parameters required", some (.str "")⟩ ∧
    run handlers appFull (.str "resize width=800 height=600") [] =
      ⟨true, 0, "Resized to 800x600", some (.str "")⟩ := by
  exact ⟨by decide, by decide⟩

/-- C5 counterexample.  The unknown-command branch of run returns an
envelope with no result property at all (not an empty string), refuting
the claim that result is present on every branch. -/
theorem c5_result_absent_counterexample :
    (run handlers appFull (.str "definitely-unknown") []).result = none := by
  decide

/-- C5 (amended).  Every envelope returned by run satisfies
success == (errorCode == 0), and output is always present; the result
property is present exactly on the normalized path where a registered
handler ran and returned (defaulting to the empty string when the handler
supplied no payload), while the not-initialized, unknown-command and
uncaught-failure branches omit result entirely. -/
theorem c5_envelope_invariants :
    (∀ (app : AppState) (cmd : RunArg) (ps : Params),
      (run handlers app cmd ps).success = ((run handlers app cmd ps).errorCode == 0)) ∧
    (∀ (app : AppState) (method : String) (args : Params) (h : MPHandler)
        (p : PartialResult), handlers method = some h → h app args = .ok p →
      (dispatchArgs handlers app method args).result = some (normalizeResult p.result) ∧
      (p.result = none → normalizeResult p.result = .str "")) ∧
    (∀ (app : AppState) (cmd : RunArg) (ps : Params), app.Layers = none →
      (run handlers app cmd ps).result = none) ∧
    (∀ (app : AppState) (method : String) (args : Params), handlers method = none →
      (dispatchArgs handlers app method args).result = none) ∧
    (∀ (app : AppState) (method : String) (args : Params) (h : MPHandler)
        (msg : String), handlers method = some h → h app args = .error msg →
      (dispatchArgs handlers app method args).result = none) := by
  refine ⟨?_, ?_, ?_, ?_, ?_⟩
  · intro app cmd ps
    unfold run
    by_cases hL : app.Layers.isNone
    · simp [hL]
    · rw [if_neg hL]
      cases cmd with
      | str s => exact dispatchArgs_success_iff app (parseCommand s).method (parseCommand s).params
      | val v => exact dispatchArgs_success_iff app (jsValueToString v) ps
  · intro app method args h p hm hr
    constructor
    · simp [dispatchArgs, hm, hr, normalizeEnvelope]
    · intro hres
      rw [hres]
      rfl
  · intro app cmd ps hL
    simp [run, hL]
  · intro app method args hm
    simp [dispatchArgs, hm]
  · intro app method args h msg hm hr
    simp [dispatchArgs, hm, hr]

theorem c5_envelope_invariants_witness :
    (run handlers appFull (.str "undo") []).success =
      ((run handlers appFull (.str "undo") []).errorCode == 0) ∧
    (dispatchArgs handlers appFull "undo" []).result =
      some (normalizeResult (pOk "Undo performed").result) :=
  ⟨c5_envelope_invariants.1 appFull (.str "undo") [],
   (c5_envelope_invariants.2.1 appFull "undo" [] undo (pOk "Undo performed")
      rfl rfl).1⟩

/-- C6.  When the looked-up handler of an initialized dispatcher raises
an uncaught failure, run catches it at the boundary and returns the
envelope (success false, errorCode 99, output "Error: <message>");
no exception escapes run (it is a total function into RespEnvelope). -/
theorem c6_uncaught_failure_envelope :
    ∀ (reg : String → Option MPHandler) (app : AppState) (s : String) (ps : Params)
      (h : MPHandler) (msg : String),
      app.Layers.isSome = true →
      reg (parseCommand s).method = some h →
      h app (parseCommand s).params = .error msg →
      run reg app (.str s) ps = ⟨false, 99, "Error: " ++ msg, none⟩ := by
  intro reg app s ps h msg hL hreg hrun
  have hN : app.Layers.isNone = false := by
    cases happ : app.Layers with
    | none => rw [happ] at hL; exact absurd hL (by decide)
    | some l => rfl
  simp [run, hN, dispatchArgs, hreg, hrun]

/-- A registry whose single handler always throws (for the witness). -/
def regThrow : String → Option MPHandler := fun _ => some (fun _ _ => .error "boom")

theorem c6_uncaught_failure_envelope_witness :
    run regThrow appFull (.str "resize width=800 height=600") [] =
      ⟨false, 99, "Error: boom", none⟩ :=
  c6_uncaught_failure_envelope regThrow appFull "resize width=800 height=600" []
    (fun _ _ => .error "boom") "boom" rfl rfl rfl

/-- C8 counterexample.  new-image with width and height both absent does
not fail with a 171-179 code: the handler defaults them to 800 and 600
and succeeds against an available provider. -/
theorem c8_new_image_no_missing_param_error :
    run handlers appFull (.str "new-image") [] =
      ⟨true, 0, "Created new image: 800x600", some (.str "")⟩ := by
  decide

/-- C8 (amended).  Every registered method that the code treats as having
required parameters returns success false with the low code of its decade
when such a parameter is missing (resize 20, rotate 30, flip 40, crop 50,
apply-effect 60, delete-layer 80, set-opacity 100, save-image 110,
open-image 10); new-image, however, treats width and height as optional
with defaults 800 and 600 and returns no missing-parameter error. -/
theorem c8_missing_required_params :
    (∀ (app : AppState) (args : Params), jsTruthyOpt (paramGet args "width") = false →
      dispatchArgs handlers app "resize" args =
        ⟨false, 20, "width and height parameters required", some (.str "")⟩) ∧
    (∀ (app : AppState) (args : Params), jsTruthyOpt (paramGet args "height") = false →
      dispatchArgs handlers app "resize" args =
        ⟨false, 20, "width and height parameters required", some (.str "")⟩) ∧
    (∀ (app : AppState) (args : Params), paramGet args "angle" = none →
      dispatchArgs handlers app "rotate" args =
        ⟨false, 30, "angle parameter required", some (.str "")⟩) ∧
    (∀ (app : AppState) (args : Params), paramGet args "direction" = none →
      dispatchArgs handlers app "flip" args =
        ⟨false, 40, "direction must be \"horizontal\" or \"vertical\"", some (.str "")⟩) ∧
    (∀ (app : AppState) (args : Params), paramGet args "x1" = none →
      dispatchArgs handlers app "crop" args =
        ⟨false, 50, "x1, y1, x2, y2 parameters required", some (.str "")⟩) ∧
    (∀ (app : AppState) (args : Params), jsTruthyOpt (paramGet args "name") = false →
      dispatchArgs handlers app "apply-effect" args =
        ⟨false, 60, "name parameter required", some (.str "")⟩) ∧
    (∀ (app : AppState) (args : Params), paramGet args "id" = none →
      dispatchArgs handlers app "delete-layer" args =
        ⟨false, 80, "id parameter required", some (.str "")⟩) ∧
    (∀ (app : AppState) (args : Params), paramGet args "layer" = none →
      dispatchArgs handlers app "set-opacity" args =
        ⟨false, 100, "layer and opacity parameters required", some (.str "")⟩) ∧
    (∀ (app : AppState) (args : Params), jsTruthyOpt (paramGet args "output") = false →
      dispatchArgs handlers app "save-image" args =
        ⟨false, 110, "output parameter required", some (.str "")⟩) ∧
    (∀ (app : AppState) (args : Params), jsTruthyOpt (paramGet args "file") = false →
      dispatchArgs handlers app "open-image" args =
        ⟨false, 10, "file parameter required", some (.str "")⟩) ∧
    (∀ (app : AppState) (args : Params) (i : ImageCap),
      paramGet args "width" = none → paramGet args "height" = none →
      imageActions app = some i → i.newImage = some (.ok ()) →
      dispatchArgs handlers app "new-image" args =
        ⟨true, 0, "Created new image: 800x600", some (.str "")⟩) := by
  refine ⟨?_, ?_, ?_, ?_, ?_, ?_, ?_, ?_, ?_, ?_, ?_⟩
  · intro app args h
    simp [dispatchArgs, show handlers "resize" = some resize from rfl, resize, h,
      normalizeEnvelope, normalizeResult, pFail]
  · intro app args h
    simp [dispatchArgs, show handlers "resize" = some resize from rfl, resize, h,
      normalizeEnvelope, normalizeResult, pFail]
  · intro app args h
    simp [dispatchArgs, show handlers "rotate" = some rotate from rfl, rotate, h,
      normalizeEnvelope, normalizeResult, pFail]
  · intro app args h
    simp [dispatchArgs, show handlers "flip" = some flip from rfl, flip, h,
      jsTruthyOpt, normalizeEnvelope, normalizeResult, pFail]
  · intro app args h
    simp [dispatchArgs, show handlers "crop" = some crop from rfl, crop, h,
      normalizeEnvelope, normalizeResult, pFail]
  · intro app args h
    simp [dispatchArgs, show handlers "apply-effect" = some applyEffect from rfl,
      applyEffect, h, normalizeEnvelope, normalizeResult, pFail]
  · intro app args h
    simp [dispatchArgs, show handlers "delete-layer" = some deleteLayer from rfl,
      deleteLayer, h, normalizeEnvelope, normalizeResult, pFail]
  · intro app args h
    simp [dispatchArgs, show handlers "set-opacity" = some setOpacity from rfl,
      setOpacity, h, normalizeEnvelope, normalizeResult, pFail]
  · intro app args h
    simp [dispatchArgs, show handlers "save-image" = some saveImage from rfl,
      saveImage, h, normalizeEnvelope, normalizeResult, pFail]
  · intro app args h
    simp [dispatchArgs, show handlers "open-image" = some openImage from rfl,
      openImage, h, normalizeEnvelope, normalizeResult, pFail]
  · intro app args i h1 h2 himg hni
    simp only [dispatchArgs, show handlers "new-image" = some newImage from rfl,
      newImage, h1, h2, himg, hni]
    decide

theorem c8_missing_required_params_witness :
    dispatchArgs handlers appFull "resize" [("height", .num (.fin (jqInt 600)))] =
      ⟨false, 20, "width and height parameters required", some (.str "")⟩ ∧
    dispatchArgs handlers appFull "new-image" [] =
      ⟨true, 0, "Created new image: 800x600", some (.str "")⟩ :=
  ⟨c8_missing_required_params.1 appFull [("height", .num (.fin (jqInt 600)))] (by decide),
   c8_missing_required_params.2.2.2.2.2.2.2.2.2.2 appFull []
     ⟨some (.ok ()), some (.ok ()), some (.ok ()), some (.ok ()), some (.ok ())⟩
     rfl rfl rfl rfl⟩

/-!
## Control-bus claims
-/

/-- Does an event settle or fire the given request id? -/
def touchesId : DirectorEvent → ℕ → Bool
  | .recv (some msg), i => (msg.type == "rpc-response") && (msg.id == i)
  | .fire _ j, i => j == i
  | _, _ => false

/-- C2.  At most one resolution per id: along every reachable director
state the settled ids are duplicate-free and a settled id has no pending
entry; and an rpc-response whose id has no pending entry (already
resolved or timed out) leaves the state entirely unchanged — dstep is a
total function, so no error is raised — as does a null message. -/
theorem c2_at_most_one_resolution :
    (∀ s : DirectorState, DReach s →
      ((s.outcomes.map Prod.fst).Nodup ∧
        ∀ i, i ∈ s.outcomes.map Prod.fst → keyGet s.pending i = none)) ∧
    (∀ (s : DirectorState) (msg : WireMsg), keyGet s.pending msg.id = none →
      dstep s (.recv (some msg)) = s) ∧
    (∀ s : DirectorState, dstep s (.recv none) = s) := by
  refine ⟨?_, ?_, ?_⟩
  · intro s hreach
    have hinv := dreach_inv s hreach
    refine ⟨hinv.outNodup, ?_⟩
    intro i hi
    rw [keyGet_none_iff]
    intro hpend
    exact hinv.disj i hpend hi
  · intro s msg h
    by_cases ht : msg.type = "rpc-response"
    · simp [dstep, ht, h]
    · simp [dstep, ht]
  · intro s
    rfl

theorem c2_at_most_one_resolution_witness :
    (((dstep initDirector (.send 0 "undo" [])).outcomes.map Prod.fst).Nodup ∧
      ∀ i, i ∈ (dstep initDirector (.send 0 "undo" [])).outcomes.map Prod.fst →
        keyGet (dstep initDirector (.send 0 "undo" [])).pending i = none) ∧
    dstep initDirector
        (.recv (some ⟨"rpc-response", 7, none, none, some true, none, none⟩)) =
      initDirector :=
  ⟨c2_at_most_one_resolution.1 (dstep initDirector (.send 0 "undo" []))
      (DReach.step initDirector (.send 0 "undo" []) DReach.init),
   c2_at_most_one_resolution.2.1 initDirector
      ⟨"rpc-response", 7, none, none, some true, none, none⟩ rfl⟩

/-- C3.  A command that was delivered, ran and failed (here flip, whose
dispatched envelope has success false and errorCode 40) comes back over
the wire with success false and the envelope in the result property; the
director's response handler then REJECTS the sendRPC promise with
'Unknown error' (the error property is absent) instead of resolving it
with the envelope, so the caller cannot distinguish a delivered failure
from an RPC-layer failure such as the timeout (which rejects with the
timeout message). -/
theorem c3_failed_envelope_is_rejected :
    workerHandleMessage appFull
        (some ⟨"rpc-request", 1, some "flip",
          some [("direction", .str "diagonal")], none, none, none⟩) =
      some ⟨"rpc-response", 1, none, none, some false,
        some ⟨false, 40, "direction must be \"horizontal\" or \"vertical\"",
          some (.str "")⟩, none⟩ ∧
    (dstep (dstep initDirector (.send 0 "flip" [("direction", .str "diagonal")]))
        (.recv (workerHandleMessage appFull
          (some ⟨"rpc-request", 1, some "flip",
            some [("direction", .str "diagonal")], none, none, none⟩)))).outcomes =
      [(1, .rejected "Unknown error")] ∧
    (dstep (dstep initDirector (.send 0 "flip" [("direction", .str "diagonal")]))
        (.fire 30000 1)).outcomes =
      [(1, .rejected "RPC request 1 (flip) timed out after 30000ms")] := by
  refine ⟨by decide, by decide, by decide⟩

/-- C4.  The director's timeout mechanism: the constructor configures a
30000 ms timeout; sendRPC at time t registers id requestId+1 with timer
deadline t + timeout; when that timer fires (at its deadline) the entry
is removed and the promise is rejected with the message naming the id and
the method; and no other event — another send, unrelated traffic, a
response or timer for a different id — removes the entry before then. -/
theorem c4_timeout_rejects_and_removes :
    initDirector.timeout = 30000 ∧
    (∀ (s : DirectorState) (t : ℕ) (m : String) (p : Params),
      keyGet (dstep s (.send t m p)).pending (s.requestId + 1) =
        some ⟨m, t + s.timeout⟩) ∧
    (∀ (s : DirectorState) (id : ℕ) (e : PendingEntry),
      keyGet s.pending id = some e →
      dstep s (.fire e.deadline id) =
        ⟨s.requestId, s.timeout, eraseKey s.pending id,
          s.outcomes ++ [(id, .rejected (rejectText id e.method s.timeout))],
          s.posted⟩) ∧
    (∀ s : DirectorState, DReach s →
      ∀ (id : ℕ) (e : PendingEntry) (ev : DirectorEvent),
        keyGet s.pending id = some e → touchesId ev id = false →
        keyGet (dstep s ev).pending id = some e) := by
  refine ⟨rfl, ?_, ?_, ?_⟩
  · intro s t m p
    simp [dstep, keyGet]
  · intro s id e h
    simp [dstep, h]
  · intro s hreach id e ev hk htouch
    cases ev with
    | send t m p =>
        have hbound := (dreach_inv s hreach).pendBound id (keyGet_some_mem hk)
        have hne : ¬(s.requestId + 1 = id) := by omega
        simpa [dstep, keyGet, hne] using hk
    | recv data =>
        cases data with
        | none => exact hk
        | some msg =>
            by_cases ht : msg.type = "rpc-response"
            · have hne : ¬(msg.id = id) := by
                intro hid
                rw [touchesId] at htouch
                simp [ht, hid] at htouch
              cases hk2 : keyGet s.pending msg.id with
              | none => simpa [dstep, ht, hk2] using hk
              | some e2 =>
                  have hs : (dstep s (.recv (some msg))).pending =
                      eraseKey s.pending msg.id := by
                    simp [dstep, ht, hk2]
                  rw [hs, keyGet_eraseKey_ne _ _ _ (fun hdi => hne hdi.symm)]
                  exact hk
            · simpa [dstep, ht] using hk
    | fire t j =>
        have hne : ¬(j = id) := by
          intro hj
          rw [touchesId] at htouch
          simp [hj] at htouch
        cases hk2 : keyGet s.pending j with
        | none => simpa [dstep, hk2] using hk
        | some e2 =>
            by_cases htd : t = e2.deadline
            · have hs : (dstep s (.fire t j)).pending = eraseKey s.pending j := by
                simp [dstep, hk2, htd]
              rw [hs, keyGet_eraseKey_ne _ _ _ (fun hdi => hne hdi.symm)]
              exact hk
            · simpa [dstep, hk2, htd] using hk

theorem c4_timeout_rejects_and_removes_witness :
    keyGet (dstep initDirector (.send 5 "resize" [])).pending 1 =
      some ⟨"resize", 30005⟩ ∧
    dstep (dstep initDirector (.send 5 "resize" [])) (.fire 30005 1) =
      ⟨1, 30000, [],
        [(1, .rejected "RPC request 1 (resize) timed out after 30000ms")],
        [⟨"rpc-request", 1, some "resize", some [], none, none, none⟩]⟩ ∧
    keyGet (dstep (dstep initDirector (.send 5 "resize" []))
        (.send 9 "undo" [])).pending 1 = some ⟨"resize", 30005⟩ := by
  refine ⟨c4_timeout_rejects_and_removes.2.1 initDirector 5 "resize" [], ?_, ?_⟩
  · have h := c4_timeout_rejects_and_removes.2.2.1
      (dstep initDirector (.send 5 "resize" [])) 1 ⟨"resize", 30005⟩
      (c4_timeout_rejects_and_removes.2.1 initDirector 5 "resize" [])
    exact h.trans (by decide)
  · exact c4_timeout_rejects_and_removes.2.2.2
      (dstep initDirector (.send 5 "resize" []))
      (DReach.step initDirector (.send 5 "resize" []) DReach.init)
      1 ⟨"resize", 30005⟩ (.send 9 "undo" [])
      (c4_timeout_rejects_and_removes.2.1 initDirector 5 "resize" []) rfl

/-!
## Meta-command claims
-/

/-- C9 counterexample.  With the RexxJS engine loaded and its parser
rejecting the embedded script, the execute-rexx wrapper returns errorCode
2 — the script executor's parse-error return code — which is below 200,
refuting the claim that every extraction-or-parse failure yields a code
of 200 or above. -/
theorem c9_parse_failure_code_below_200 :
    (executeRexxWrapper envParseFail appFull "execute-rexx script=\"BAD\"" []).errorCode
      = 2 ∧
    (executeRexxWrapper envParseFail appFull "execute-rexx script=\"BAD\"" []).errorCode
      < 200 := by
  refine ⟨by decide, by decide⟩

/-- C9 (amended).  A missing script payload yields errorCode 200 (and an
uncaught script-execution failure would yield 299), but a parse failure
of the embedded script body is propagated as the script executor's
returnCode 2 — colliding with the unknown-command code — not as a code
of 200 or above. -/
theorem c9_meta_command_codes :
    (∀ (env : RexxEnv) (app : AppState) (ps : Params),
      paramGet ps "script" = none →
      executeRexxWrapper env app "execute-rexx" ps =
        ⟨false, 200, "script parameter required for execute-rexx", none⟩) ∧
    (∀ (env : RexxEnv) (app : AppState) (sv : JSValue) (ps : Params) (m : String),
      env.loaded = true → env.parseScript sv = .error m →
      executeRexxScript env app sv ps =
        ⟨false, String.mk (trimChars ("\nParse error: " ++ m).toList),
          some (.str ""), 2⟩) ∧
    (∀ (env : RexxEnv) (app : AppState) (ps : Params) (v : JSValue) (m : String),
      env.loaded = true → paramGet ps "script" = some v → jsTruthy v = true →
      env.parseScript v = .error m →
      executeRexxWrapper env app "execute-rexx" ps =
        ⟨false, 2, String.mk (trimChars ("\nParse error: " ++ m).toList),
          some (.str "")⟩) := by
  refine ⟨?_, ?_, ?_⟩
  · intro env app ps h
    unfold executeRexxWrapper
    rw [if_pos (show leadsWith "execute-rexx".toList "execute-rexx".toList = true from
      by decide)]
    rw [h]
    rfl
  · intro env app sv ps m henv hparse
    simp [executeRexxScript, henv, hparse]
  · intro env app ps v m henv hps hv hparse
    unfold executeRexxWrapper
    rw [if_pos (show leadsWith "execute-rexx".toList "execute-rexx".toList = true from
      by decide)]
    rw [hps]
    simp [hv, executeRexxScript, henv, hparse]

theorem c9_meta_command_codes_witness :
    executeRexxWrapper envParseFail appFull "execute-rexx" [] =
      ⟨false, 200, "script parameter required for execute-rexx", none⟩ ∧
    executeRexxWrapper envParseFail appFull "execute-rexx"
        [("script", .str "SAY x x")] =
      ⟨false, 2,
        String.mk (trimChars ("\nParse error: " ++ "Unexpected token").toList),
        some (.str "")⟩ :=
  ⟨c9_meta_command_codes.1 envParseFail appFull [] rfl,
   c9_meta_command_codes.2.2 envParseFail appFull [("script", .str "SAY x x")]
     (.str "SAY x x") "Unexpected token" rfl rfl rfl rfl⟩

end MiniPaint
